import Mathlib

/-!
Shallow embedding of the xnumon entry point (src/xnumon.c) and of the
spec-described event correlation pipeline, together with theorems checking
the specification's claims against it.

The entry point `main` is embedded as a function from an environment of
external collaborators (config loader, OS policy calls, pidfile syscalls,
event loop) to a trace of performed actions plus the process exit code.
External calls are modelled by oracle fields of `Env`; each call site in
the C source corresponds to an `Action` recorded in the trace.
-/

namespace Xnumon

/-- Process exit status, `EXIT_SUCCESS` / `EXIT_FAILURE`. -/
inductive ExitCode where
  | success
  | failure
deriving DecidableEq, Repr

/-- The configuration object `config_t`. `path`, `launchd_mode` and
`limit_nofile` are the fields the entry point touches directly
(`cfg->path`, `cfg->launchd_mode = true`, `cfg->limit_nofile`); the
remaining key/value state mutated through `config_str` is kept abstract
as an association list. -/
structure Config where
  path : String
  launchd_mode : Bool
  limit_nofile : Nat
  settings : List (String × String)
deriving DecidableEq, Repr

/-- One command-line option as delivered by `getopt` with optstring
`"o:l:f:1mdc:Vh"`: `o`, `l`, `f`, `c` carry an argument, `one` is `-1`,
`unknown` is getopt's `?` result for an unrecognized option. -/
inductive Opt where
  | o (arg : String)
  | l (arg : String)
  | f (arg : String)
  | one
  | m
  | d
  | c (arg : String)
  | V
  | h
  | unknown
deriving DecidableEq, Repr

/-- The externally visible actions `main` performs, in program order.
Each constructor corresponds to one call site in src/xnumon.c. -/
inductive Action where
  | debugInit
  | umaskSet
  | configNew (cfgpath : Option String)
  | configStr (key val : String)
  | setLaunchd
  | taskSched
  | diskio
  | limitNoFile (n : Nat)
  | pidfOpen
  | pidfWrite
  | evtloopRun (cfg : Config)
  | pidfClose (fd : Int) (path : String)
  | configFree (cfg : Config)
  | debugFini
deriving DecidableEq, Repr

/-- `XNUMON_PIDFILE`. -/
def xnumonPidfile : String := "/var/run/xnumon.pid"

/-- Oracle environment for the external collaborators called by `main`.
Boolean fields are `true` when the corresponding C call succeeds
(returns something other than `-1`). -/
structure Env where
  config_new : Option String → Option Config
  config_str : Config → String → String → Option Config
  getuid : Nat
  setuid0 : Bool
  policy_task_sched_priority : Bool
  policy_thread_diskio_important : Bool
  sys_limit_nofile : Nat → Bool
  sys_pidf_open : Int
  sys_pidf_write : Bool
  evtloop_run : Config → Int

/-- First getopt pass over the options (src/xnumon.c lines 77-111):
`-c` records the config path (a later `-c` overwrites an earlier one),
`-V` and `-h` exit with success, an unrecognized option exits with
failure, and the second-pass options are skipped. Returns the early
exit code or the accumulated config path. -/
def firstPass : List Opt → Option String → Sum ExitCode (Option String)
  | [], cp => Sum.inr cp
  | Opt.c s :: rest, _ => firstPass rest (some s)
  | Opt.V :: _, _ => Sum.inl ExitCode.success
  | Opt.h :: _, _ => Sum.inl ExitCode.success
  | Opt.unknown :: _, _ => Sum.inl ExitCode.failure
  | Opt.o _ :: rest, cp => firstPass rest cp
  | Opt.l _ :: rest, cp => firstPass rest cp
  | Opt.f _ :: rest, cp => firstPass rest cp
  | Opt.one :: rest, cp => firstPass rest cp
  | Opt.m :: rest, cp => firstPass rest cp
  | Opt.d :: rest, cp => firstPass rest cp

/-- Split an `-o` argument `key=value` at the first `=`, as the pointer
scan in the `-o` case does; `none` when the argument has no `=`. -/
def splitEq (s : String) : Option (String × String) :=
  match s.splitOn "=" with
  | [] => none
  | [_] => none
  | k :: rest => some (k, String.intercalate "=" rest)

/-- Second getopt pass (src/xnumon.c lines 128-183): applies the
configuration overrides in order. Returns the trace of configuration
mutations actually performed, the resulting configuration, and `false`
when an option error takes the `goto errout` path. First-pass options
are skipped. -/
def secondPass (env : Env) : List Opt → Config → List Action × Config × Bool
  | [], cfg => ([], cfg, true)
  | Opt.o s :: rest, cfg =>
    match splitEq s with
    | none => ([], cfg, false)
    | some (k, v) =>
      match env.config_str cfg k v with
      | none => ([], cfg, false)
      | some cfg' =>
        let t := secondPass env rest cfg'
        (Action.configStr k v :: t.1, t.2)
  | Opt.l s :: rest, cfg =>
    match env.config_str cfg "log_format" s with
    | none => ([], cfg, false)
    | some cfg' =>
      let t := secondPass env rest cfg'
      (Action.configStr "log_format" s :: t.1, t.2)
  | Opt.f s :: rest, cfg =>
    match env.config_str cfg "log_destination" s with
    | none => ([], cfg, false)
    | some cfg' =>
      let t := secondPass env rest cfg'
      (Action.configStr "log_destination" s :: t.1, t.2)
  | Opt.one :: rest, cfg =>
    match env.config_str cfg "log_mode" "oneline" with
    | none => ([], cfg, false)
    | some cfg' =>
      let t := secondPass env rest cfg'
      (Action.configStr "log_mode" "oneline" :: t.1, t.2)
  | Opt.m :: rest, cfg =>
    match env.config_str cfg "log_mode" "multiline" with
    | none => ([], cfg, false)
    | some cfg' =>
      let t := secondPass env rest cfg'
      (Action.configStr "log_mode" "multiline" :: t.1, t.2)
  | Opt.d :: rest, cfg =>
    let t := secondPass env rest { cfg with launchd_mode := true }
    (Action.setLaunchd :: t.1, t.2)
  | Opt.c _ :: rest, cfg => secondPass env rest cfg
  | Opt.V :: rest, cfg => secondPass env rest cfg
  | Opt.h :: rest, cfg => secondPass env rest cfg
  | Opt.unknown :: rest, cfg => secondPass env rest cfg

/-- The `errout` epilogue of `main`: close the pidfile when it was
opened, free the configuration when it was loaded, `debug_fini`, and
exit with failure exactly when `rv == -1`. -/
def errout (pidfd : Int) (cfg : Option Config) (rv : Int) : List Action × ExitCode :=
  ((if pidfd = -1 then [] else [Action.pidfClose pidfd xnumonPidfile]) ++
     (match cfg with
      | none => []
      | some c => [Action.configFree c]) ++
     [Action.debugFini],
   if rv = -1 then ExitCode.failure else ExitCode.success)

/-- Prepend an action to a trace/exit pair. -/
def withAct (a : Action) (r : List Action × ExitCode) : List Action × ExitCode :=
  (a :: r.1, r.2)

/-- The startup sequence of `main` after option handling (src/xnumon.c
lines 194-249): privilege check, scheduler priority, disk-IO policy,
descriptor limit, pidfile open/write, then the event loop; any failure
takes the `errout` path with `rv` still `-1`. -/
def runStartup (env : Env) (cfg : Config) : List Action × ExitCode :=
  if (env.getuid != 0) && !env.setuid0 then
    errout (-1) (some cfg) (-1)
  else
    withAct Action.taskSched
      (if !env.policy_task_sched_priority then
        errout (-1) (some cfg) (-1)
      else
        withAct Action.diskio
          (if !env.policy_thread_diskio_important then
            errout (-1) (some cfg) (-1)
          else
            withAct (Action.limitNoFile cfg.limit_nofile)
              (if !(env.sys_limit_nofile cfg.limit_nofile) then
                errout (-1) (some cfg) (-1)
              else
                withAct Action.pidfOpen
                  (if env.sys_pidf_open = -1 then
                    errout (-1) (some cfg) (-1)
                  else
                    withAct Action.pidfWrite
                      (if !env.sys_pidf_write then
                        errout env.sys_pidf_open (some cfg) (-1)
                      else
                        withAct (Action.evtloopRun cfg)
                          (errout env.sys_pidf_open (some cfg)
                            (env.evtloop_run cfg)))))))

/-- The entry point `main` of src/xnumon.c: first getopt pass, then
`debug_init`/`umask`, `config_new`, second getopt pass, the
extra-argument usage check (`argc > optind`, modelled by `extraArgs`),
and the startup sequence. Produces the trace of external actions and
the exit code. -/
def main (env : Env) (opts : List Opt) (extraArgs : Bool) : List Action × ExitCode :=
  match firstPass opts none with
  | Sum.inl code => ([], code)
  | Sum.inr cfgpath =>
    let pre := [Action.debugInit, Action.umaskSet, Action.configNew cfgpath]
    match env.config_new cfgpath with
    | none =>
      let e := errout (-1) none (-1)
      (pre ++ e.1, e.2)
    | some cfg0 =>
      let sp := secondPass env opts cfg0
      if !sp.2.2 then
        let e := errout (-1) (some sp.2.1) (-1)
        (pre ++ sp.1 ++ e.1, e.2)
      else if extraArgs then
        let e := errout (-1) (some sp.2.1) (-1)
        (pre ++ sp.1 ++ e.1, e.2)
      else
        let s := runStartup env sp.2.1
        (pre ++ sp.1 ++ s.1, s.2)

/-- Does this action mutate the configuration object? -/
def isConfigMod : Action → Bool
  | Action.configStr _ _ => true
  | Action.setLaunchd => true
  | _ => false

/-- Is this action the `config_new` call? -/
def isConfigNew : Action → Bool
  | Action.configNew _ => true
  | _ => false

/-- Is this action the `evtloop_run` call? -/
def isEvtloopRun : Action → Bool
  | Action.evtloopRun _ => true
  | _ => false

def isTaskSched : Action → Bool
  | Action.taskSched => true
  | _ => false

def isDiskio : Action → Bool
  | Action.diskio => true
  | _ => false

def isLimitNoFile : Action → Bool
  | Action.limitNoFile _ => true
  | _ => false

def isPidfOpen : Action → Bool
  | Action.pidfOpen => true
  | _ => false

def isPidfClose : Action → Bool
  | Action.pidfClose _ _ => true
  | _ => false

/-- Is this one of the global bootstrap side effects: scheduler
priority, disk-IO policy, descriptor limit, pidfile lock? -/
def isBootstrap (a : Action) : Bool :=
  isTaskSched a || isDiskio a || isLimitNoFile a || isPidfOpen a

/-- The part of the trace strictly after the first action satisfying
`p`; `[]` when no action satisfies `p`. -/
def afterFirst (p : Action → Bool) : List Action → List Action
  | [] => []
  | a :: rest => if p a then rest else afterFirst p rest

/-- Is this option handled by the second getopt pass
(`-o -l -f -1 -m -d`)? -/
def isOverrideOpt : Opt → Bool
  | Opt.o _ => true
  | Opt.l _ => true
  | Opt.f _ => true
  | Opt.one => true
  | Opt.m => true
  | Opt.d => true
  | _ => false

/-- Modelled from the spec: the decoded audit records consumed by the
CorrelationEngine (section 3, AuditRecord). The pipeline sources
(evtloop.c, proctab, correlation code) are not part of this repository
snapshot; only the record kinds the claims exercise are modelled. -/
inductive ARecord where
  | openR (fd : Nat) (path : String)
  | writeR (fd : Nat) (len : Nat)
  | closeR (fd : Nat)
  | forkR (pid : Nat)
  | exitR (pid : Nat)
deriving DecidableEq, Repr

/-- Modelled from the spec: a FileHandle (section 3) — fd, path,
accumulated write length, and a degraded flag for handles whose open
was never seen. -/
structure FileHandle where
  fd : Nat
  path : Option String
  acc : Nat
  degraded : Bool
deriving DecidableEq, Repr

/-- Modelled from the spec: a ProcessEntry (section 3) — pid,
generation counter, exited flag. -/
structure ProcessEntry where
  pid : Nat
  gen : Nat
  exited : Bool
deriving DecidableEq, Repr

/-- Modelled from the spec: an emitted SecurityEvent (section 3),
restricted to the fields the claims exercise. A degraded file event
carries no definite byte count. -/
inductive SEvent where
  | fileEv (path : Option String) (nbytes : Option Nat) (degraded : Bool)
  | forkEv (pid gen : Nat)
  | exitEv (pid gen : Nat)
deriving DecidableEq, Repr

/-- Modelled from the spec: the CorrelationEngine state — the
ProcessTable and the per-file join state. -/
structure CState where
  procs : List ProcessEntry
  files : List FileHandle
deriving DecidableEq, Repr

/-- The highest generation already used for `pid`, 0 when none. -/
def maxGen (t : List ProcessEntry) (pid : Nat) : Nat :=
  (t.filter (fun e => e.pid == pid)).foldr (fun e m => max e.gen m) 0

/-- Modelled from the spec: `onFork` (section 4.3) — create the child
entry with a fresh generation, closing any stale entry still live
under the child's pid number. The new entry is prepended, so it is the
current generation. -/
def onFork (t : List ProcessEntry) (pid : Nat) : List ProcessEntry :=
  { pid := pid, gen := maxGen t pid + 1, exited := false } ::
    t.map (fun e => if e.pid == pid then { e with exited := true } else e)

/-- Modelled from the spec: `onExit` (section 4.3) — mark the current
entry for `pid` exited. -/
def onExit (t : List ProcessEntry) (pid : Nat) : List ProcessEntry :=
  t.map (fun e => if e.pid == pid then { e with exited := true } else e)

/-- Modelled from the spec: `lookup` (section 4.3) — resolves only the
current generation, i.e. the most recently created entry for `pid`. -/
def lookup (t : List ProcessEntry) (pid : Nat) : Option ProcessEntry :=
  t.find? (fun e => e.pid == pid)

/-- Modelled from the spec: one CorrelationEngine step (section 4.4).
Updates ProcessTable / per-file join state and returns the logical
events assembled from this record. A close with no prior open still
emits, marked degraded; a write with no prior open creates a degraded
handle whose byte count is indefinite. -/
def correlate (st : CState) : ARecord → CState × List SEvent
  | ARecord.forkR pid =>
    ({ st with procs := onFork st.procs pid },
     [SEvent.forkEv pid (maxGen st.procs pid + 1)])
  | ARecord.exitR pid =>
    ({ st with procs := onExit st.procs pid },
     match lookup st.procs pid with
     | some e => [SEvent.exitEv pid e.gen]
     | none => [])
  | ARecord.openR fd p =>
    ({ st with
        files := { fd := fd, path := some p, acc := 0, degraded := false } ::
          st.files.filter (fun h => h.fd != fd) },
     [])
  | ARecord.writeR fd len =>
    match st.files.find? (fun h => h.fd == fd) with
    | some _ =>
      ({ st with
          files := st.files.map (fun h =>
            if h.fd == fd then { h with acc := h.acc + len } else h) },
       [])
    | none =>
      ({ st with
          files := { fd := fd, path := none, acc := len, degraded := true } ::
            st.files },
       [])
  | ARecord.closeR fd =>
    match st.files.find? (fun h => h.fd == fd) with
    | some h =>
      ({ st with files := st.files.filter (fun x => x.fd != fd) },
       [SEvent.fileEv h.path (if h.degraded then none else some h.acc) h.degraded])
    | none =>
      (st, [SEvent.fileEv none none true])

/-- Modelled from the spec: run the CorrelationEngine over a record
sequence in frame order, collecting the emitted events. -/
def runEngine (st : CState) : List ARecord → CState × List SEvent
  | [] => (st, [])
  | r :: rs =>
    let a := correlate st r
    let b := runEngine a.1 rs
    (b.1, a.2 ++ b.2)

/-- The empty CorrelationEngine state of a fresh pipeline. -/
def emptyState : CState := { procs := [], files := [] }

/-- Modelled from the spec: the PolicyEngine verdicts (section 6). -/
inductive Verdict where
  | pass
  | suppress
  | redact
deriving DecidableEq, Repr

/-- Modelled from the spec: one pipeline step with policy consultation
(section 4.4) — the engine updates all state first, then each
fully-assembled event is evaluated; an event marked `suppress` is
dropped before the sink, and state mutations are never rolled back. -/
def pipelineStep (policy : SEvent → Verdict) (st : CState) (r : ARecord) :
    CState × List SEvent :=
  let a := correlate st r
  (a.1, a.2.filter (fun e => !(policy e == Verdict.suppress)))

/-- A concrete configuration used to instantiate proved theorems. -/
def sampleCfg : Config :=
  { path := "/cfg", launchd_mode := false, limit_nofile := 256, settings := [] }

/-- A concrete environment in which every external call succeeds. -/
def sampleEnv : Env where
  config_new := fun _ => some sampleCfg
  config_str := fun c k v => some { c with settings := (k, v) :: c.settings }
  getuid := 0
  setuid0 := true
  policy_task_sched_priority := true
  policy_thread_diskio_important := true
  sys_limit_nofile := fun _ => true
  sys_pidf_open := 5
  sys_pidf_write := true
  evtloop_run := fun _ => 0

/-- A concrete policy that suppresses file events and passes the rest. -/
def samplePolicy : SEvent → Verdict
  | SEvent.fileEv _ _ _ => Verdict.suppress
  | _ => Verdict.pass

/-- The possible action segments produced by `runStartup` between the
end of option handling and the `errout` epilogue, together with the
pidfile descriptor and `rv` reaching `errout`: one constructor per exit
path of the startup sequence. -/
inductive MidTrace (env : Env) (cfg : Config) : List Action → Int → Int → Prop where
  | uidFail : MidTrace env cfg [] (-1) (-1)
  | taskFail : MidTrace env cfg [Action.taskSched] (-1) (-1)
  | diskioFail : MidTrace env cfg [Action.taskSched, Action.diskio] (-1) (-1)
  | limitFail :
    MidTrace env cfg
      [Action.taskSched, Action.diskio, Action.limitNoFile cfg.limit_nofile] (-1) (-1)
  | openFail :
    MidTrace env cfg
      [Action.taskSched, Action.diskio, Action.limitNoFile cfg.limit_nofile,
       Action.pidfOpen] (-1) (-1)
  | writeFail (h : env.sys_pidf_open ≠ -1) :
    MidTrace env cfg
      [Action.taskSched, Action.diskio, Action.limitNoFile cfg.limit_nofile,
       Action.pidfOpen, Action.pidfWrite] env.sys_pidf_open (-1)
  | loop (h : env.sys_pidf_open ≠ -1) :
    MidTrace env cfg
      [Action.taskSched, Action.diskio, Action.limitNoFile cfg.limit_nofile,
       Action.pidfOpen, Action.pidfWrite, Action.evtloopRun cfg]
      env.sys_pidf_open (env.evtloop_run cfg)

/-- Invariant for pid-reuse reasoning: the current-generation entry for
`pid` (when present) has generation at least 2, and at least one
generation has already been used for `pid`. -/
def genInv (pid : Nat) (st : CState) : Prop :=
  (∀ e, lookup st.procs pid = some e → 2 ≤ e.gen) ∧ 1 ≤ maxGen st.procs pid

theorem errout_exit (pidfd : Int) (cfg : Option Config) (rv : Int) :
    (errout pidfd cfg rv).2 = if rv = -1 then ExitCode.failure else ExitCode.success := rfl

theorem errout_countP_zero (p : Action → Bool) (pidfd : Int) (cfg : Option Config) (rv : Int)
    (h1 : ∀ fd s, p (Action.pidfClose fd s) = false)
    (h2 : ∀ c, p (Action.configFree c) = false)
    (h3 : p Action.debugFini = false) :
    ((errout pidfd cfg rv).1.countP p) = 0 := by
  unfold errout
  rcases cfg with _ | c <;> by_cases hp : pidfd = -1 <;>
    simp [hp, List.countP_cons, List.countP_append, h1, h2, h3]

theorem secondPass_trace_configMod (env : Env) (l : List Opt) :
    ∀ (cfg : Config), ∀ a ∈ (secondPass env l cfg).1, isConfigMod a = true := by
  induction l with
  | nil => intro cfg a ha; simp [secondPass] at ha
  | cons o rest ih =>
    intro cfg a ha
    cases o with
    | o s =>
      simp only [secondPass] at ha
      split at ha
      · simp at ha
      · split at ha
        · simp at ha
        · rcases List.mem_cons.mp ha with h | h
          · subst h; rfl
          · exact ih _ a h
    | l s =>
      simp only [secondPass] at ha
      split at ha
      · simp at ha
      · rcases List.mem_cons.mp ha with h | h
        · subst h; rfl
        · exact ih _ a h
    | f s =>
      simp only [secondPass] at ha
      split at ha
      · simp at ha
      · rcases List.mem_cons.mp ha with h | h
        · subst h; rfl
        · exact ih _ a h
    | one =>
      simp only [secondPass] at ha
      split at ha
      · simp at ha
      · rcases List.mem_cons.mp ha with h | h
        · subst h; rfl
        · exact ih _ a h
    | m =>
      simp only [secondPass] at ha
      split at ha
      · simp at ha
      · rcases List.mem_cons.mp ha with h | h
        · subst h; rfl
        · exact ih _ a h
    | d =>
      simp only [secondPass] at ha
      rcases List.mem_cons.mp ha with h | h
      · subst h; rfl
      · exact ih _ a h
    | c s => exact ih _ a ha
    | V => exact ih _ a ha
    | h => exact ih _ a ha
    | unknown => exact ih _ a ha

theorem secondPass_countP_zero (env : Env) (l : List Opt) (cfg : Config) (p : Action → Bool)
    (h1 : ∀ k v, p (Action.configStr k v) = false) (h2 : p Action.setLaunchd = false) :
    ((secondPass env l cfg).1.countP p) = 0 := by
  rw [List.countP_eq_zero]
  intro a ha
  have hc := secondPass_trace_configMod env l cfg a ha
  cases a <;> simp_all [isConfigMod]

theorem afterFirst_of_countP_zero (p : Action → Bool) (l : List Action)
    (h : l.countP p = 0) : afterFirst p l = [] := by
  induction l with
  | nil => rfl
  | cons a l ih =>
    rw [List.countP_cons] at h
    cases hp : p a with
    | false =>
      simp only [afterFirst, hp, if_neg Bool.false_ne_true]
      exact ih (by omega)
    | true => rw [hp] at h; simp at h

theorem afterFirst_append_left_zero (p : Action → Bool) (l1 l2 : List Action)
    (h : l1.countP p = 0) : afterFirst p (l1 ++ l2) = afterFirst p l2 := by
  induction l1 with
  | nil => rfl
  | cons a l ih =>
    rw [List.countP_cons] at h
    cases hp : p a with
    | false =>
      simp only [List.cons_append, afterFirst, hp, if_neg Bool.false_ne_true]
      exact ih (by omega)
    | true => rw [hp] at h; simp at h

theorem runStartup_shape (env : Env) (cfg : Config) :
    ∃ mid pidfd rv, MidTrace env cfg mid pidfd rv ∧
      runStartup env cfg =
        (mid ++ (errout pidfd (some cfg) rv).1, (errout pidfd (some cfg) rv).2) := by
  unfold runStartup
  by_cases h1 : ((env.getuid != 0) && !env.setuid0) = true
  · exact ⟨[], -1, -1, MidTrace.uidFail, by simp [h1]⟩
  · by_cases h2 : env.policy_task_sched_priority = true
    · by_cases h3 : env.policy_thread_diskio_important = true
      · by_cases h4 : env.sys_limit_nofile cfg.limit_nofile = true
        · by_cases h5 : env.sys_pidf_open = -1
          · exact ⟨_, -1, -1, MidTrace.openFail, by simp [h1, h2, h3, h4, h5, withAct]⟩
          · by_cases h6 : env.sys_pidf_write = true
            · exact ⟨_, env.sys_pidf_open, env.evtloop_run cfg, MidTrace.loop h5,
                by simp [h1, h2, h3, h4, h5, h6, withAct]⟩
            · exact ⟨_, env.sys_pidf_open, -1, MidTrace.writeFail h5,
                by simp [h1, h2, h3, h4, h5, h6, withAct]⟩
        · exact ⟨_, -1, -1, MidTrace.limitFail, by simp [h1, h2, h3, h4, withAct]⟩
      · exact ⟨_, -1, -1, MidTrace.diskioFail, by simp [h1, h2, h3, withAct]⟩
    · exact ⟨_, -1, -1, MidTrace.taskFail, by simp [h1, h2, withAct]⟩

theorem main_shape (env : Env) (opts : List Opt) (extra : Bool) :
    (∃ code, main env opts extra = ([], code)) ∨
    ∃ cp tr mid cfgo pidfd rv,
      (∀ a ∈ tr, isConfigMod a = true) ∧
      ((mid = [] ∧ pidfd = -1 ∧ rv = -1) ∨
        ∃ cfg, cfgo = some cfg ∧ MidTrace env cfg mid pidfd rv) ∧
      main env opts extra =
        ([Action.debugInit, Action.umaskSet, Action.configNew cp] ++ tr ++ mid ++
           (errout pidfd cfgo rv).1,
         (errout pidfd cfgo rv).2) := by
  unfold main
  cases hfp : firstPass opts none with
  | inl code => exact Or.inl ⟨code, rfl⟩
  | inr cp =>
    right
    cases hcn : env.config_new cp with
    | none =>
      exact ⟨cp, [], [], none, -1, -1, by simp, Or.inl ⟨rfl, rfl, rfl⟩, by simp [hcn]⟩
    | some cfg0 =>
      by_cases hsp : (secondPass env opts cfg0).2.2 = true
      · by_cases hex : extra = true
        · exact ⟨cp, (secondPass env opts cfg0).1, [], some (secondPass env opts cfg0).2.1,
            -1, -1, secondPass_trace_configMod env opts cfg0, Or.inl ⟨rfl, rfl, rfl⟩,
            by simp [hcn, hsp, hex]⟩
        · obtain ⟨mid, pidfd, rv, hmt, heq⟩ :=
            runStartup_shape env (secondPass env opts cfg0).2.1
          exact ⟨cp, (secondPass env opts cfg0).1, mid, some (secondPass env opts cfg0).2.1,
            pidfd, rv, secondPass_trace_configMod env opts cfg0,
            Or.inr ⟨(secondPass env opts cfg0).2.1, rfl, hmt⟩,
            by simp [hcn, hsp, hex, heq]⟩
      · have hsp' : (secondPass env opts cfg0).2.2 = false := Bool.eq_false_iff.mpr hsp
        exact ⟨cp, (secondPass env opts cfg0).1, [], some (secondPass env opts cfg0).2.1,
          -1, -1, secondPass_trace_configMod env opts cfg0, Or.inl ⟨rfl, rfl, rfl⟩,
          by simp [hcn, hsp']⟩

theorem maxGen_cons (e : ProcessEntry) (t : List ProcessEntry) (pid : Nat) :
    maxGen (e :: t) pid =
      if e.pid == pid then max e.gen (maxGen t pid) else maxGen t pid := by
  unfold maxGen
  rw [List.filter_cons]
  by_cases h : (e.pid == pid) = true
  · simp [h]
  · simp [h]

theorem maxGen_map (t : List ProcessEntry) (f : ProcessEntry → ProcessEntry) (pid : Nat)
    (hf : ∀ e, (f e).pid = e.pid ∧ (f e).gen = e.gen) :
    maxGen (t.map f) pid = maxGen t pid := by
  induction t with
  | nil => rfl
  | cons e t ih =>
    rw [List.map_cons, maxGen_cons, maxGen_cons, (hf e).1, (hf e).2, ih]

theorem lookup_map (t : List ProcessEntry) (f : ProcessEntry → ProcessEntry) (pid : Nat)
    (hf : ∀ e, (f e).pid = e.pid) :
    lookup (t.map f) pid = (lookup t pid).map f := by
  induction t with
  | nil => rfl
  | cons e t ih =>
    unfold lookup at ih ⊢
    rw [List.map_cons, List.find?_cons, List.find?_cons, hf e]
    by_cases h : (e.pid == pid) = true
    · simp [h]
    · simp only [Bool.not_eq_true] at h
      simp [h, ih]

theorem exitMark_preserves (p : Nat) :
    ∀ e : ProcessEntry,
      ((fun e => if e.pid == p then { e with exited := true } else e) e).pid = e.pid ∧
      ((fun e => if e.pid == p then { e with exited := true } else e) e).gen = e.gen := by
  intro e
  by_cases hep : (e.pid == p) = true <;> simp [hep]

theorem genInv_correlate (pid : Nat) (st : CState) (r : ARecord)
    (h : genInv pid st) : genInv pid (correlate st r).1 := by
  obtain ⟨hl, hm⟩ := h
  cases r with
  | forkR p =>
    constructor
    · intro e he
      simp only [correlate, onFork] at he
      unfold lookup at he
      rw [List.find?_cons] at he
      by_cases hpp : (p == pid) = true
      · simp only [hpp] at he
        simp only [Option.some.injEq] at he
        have hpe : p = pid := by simpa using hpp
        subst hpe
        subst he
        show 2 ≤ maxGen st.procs p + 1
        omega
      · simp only [Bool.not_eq_true] at hpp
        simp only [hpp] at he
        have hmap := lookup_map st.procs
          (fun e => if e.pid == p then { e with exited := true } else e) pid
          (fun e => (exitMark_preserves p e).1)
        unfold lookup at hmap
        rw [hmap] at he
        obtain ⟨e0, he0, hfe⟩ := Option.map_eq_some'.mp he
        have hg0 : 2 ≤ e0.gen := hl e0 he0
        have hge : e.gen = e0.gen := by
          rw [← hfe]; exact (exitMark_preserves p e0).2
        omega
    · simp only [correlate, onFork]
      rw [maxGen_cons]
      rw [maxGen_map st.procs _ pid (exitMark_preserves p)]
      by_cases hpp : (p == pid) = true
      · simp only [hpp, if_pos]
        omega
      · simp only [Bool.not_eq_true] at hpp
        simp [hpp]
        omega
  | exitR p =>
    constructor
    · intro e he
      simp only [correlate, onExit] at he
      rw [lookup_map st.procs _ pid (fun e => (exitMark_preserves p e).1)] at he
      obtain ⟨e0, he0, hfe⟩ := Option.map_eq_some'.mp he
      have hg0 : 2 ≤ e0.gen := hl e0 he0
      have hge : e.gen = e0.gen := by
        rw [← hfe]; exact (exitMark_preserves p e0).2
      omega
    · simp only [correlate, onExit]
      rw [maxGen_map st.procs _ pid (exitMark_preserves p)]
      exact hm
  | openR fd pth => exact ⟨hl, hm⟩
  | writeR fd len =>
    simp only [correlate]
    split <;> exact ⟨hl, hm⟩
  | closeR fd =>
    simp only [correlate]
    split <;> exact ⟨hl, hm⟩

theorem genInv_runEngine (pid : Nat) (st : CState) (rs : List ARecord)
    (h : genInv pid st) : genInv pid (runEngine st rs).1 := by
  induction rs generalizing st with
  | nil => exact h
  | cons r rs ih => exact ih (correlate st r).1 (genInv_correlate pid st r h)

/-- C2: feeding open(fd=3,path=P), write(fd=3,len=10), write(fd=3,len=5),
close(fd=3) to a fresh CorrelationEngine emits exactly one file event,
and it carries accumulated write length 15 and path P. -/
theorem join_open_write_write_close (P : String) :
    (runEngine emptyState
      [ARecord.openR 3 P, ARecord.writeR 3 10, ARecord.writeR 3 5,
       ARecord.closeR 3]).2 =
    [SEvent.fileEv (some P) (some 15) false] := rfl

/-- C3: after fork(pid=7), exit(pid=7), fork(pid=7) are processed, the
lookup for pid 7 resolves to the generation-2 entry, and after any
further record sequence a lookup for pid 7 never resolves to the
generation-1 entry (the resolved generation stays at least 2): process
identity is the pair (pid, generation), never pid alone. -/
theorem pid_reuse_lookup :
    (lookup (runEngine emptyState
        [ARecord.forkR 7, ARecord.exitR 7, ARecord.forkR 7]).1.procs 7 =
      some { pid := 7, gen := 2, exited := false }) ∧
    ∀ (rs : List ARecord) (e : ProcessEntry),
      lookup (runEngine (runEngine emptyState
          [ARecord.forkR 7, ARecord.exitR 7, ARecord.forkR 7]).1 rs).1.procs 7 =
        some e →
      2 ≤ e.gen := by
  constructor
  · rfl
  · intro rs e he
    have hinv : genInv 7 (runEngine emptyState
        [ARecord.forkR 7, ARecord.exitR 7, ARecord.forkR 7]).1 := by
      constructor
      · intro e' he'
        have h2 : some ({ pid := 7, gen := 2, exited := false } : ProcessEntry) =
            some e' := he'
        cases h2
        decide
      · decide
    exact (genInv_runEngine 7 _ rs hinv).1 e he

/-- C3 witness: instantiating the subsequent-lookup property at the
record sequence [fork(pid=9)]. -/
theorem pid_reuse_lookup_witness :
    (lookup (runEngine (runEngine emptyState
        [ARecord.forkR 7, ARecord.exitR 7, ARecord.forkR 7]).1
        [ARecord.forkR 9]).1.procs 7 =
      some { pid := 7, gen := 2, exited := false }) ∧
    2 ≤ ({ pid := 7, gen := 2, exited := false } : ProcessEntry).gen :=
  ⟨by decide, pid_reuse_lookup.2 [ARecord.forkR 9] _ (by decide)⟩

/-- C7: an event the PolicyEngine marks suppress never reaches the
EventSink (every event the step forwards has a non-suppress verdict),
while the ProcessTable and FileHandle state after the step equals the
state produced by correlation alone, i.e. exactly the mutations that
would have been applied had the event been forwarded. -/
theorem suppress_never_reaches_sink (policy : SEvent → Verdict) (st : CState)
    (r : ARecord) :
    (pipelineStep policy st r).1 = (correlate st r).1 ∧
    ∀ e ∈ (pipelineStep policy st r).2, policy e ≠ Verdict.suppress := by
  refine ⟨rfl, ?_⟩
  intro e he
  simp only [pipelineStep, List.mem_filter, Bool.not_eq_true'] at he
  intro hc
  rw [hc] at he
  simp at he

theorem errout_no_evtloop (pidfd : Int) (cfgo : Option Config) (rv : Int) (c : Config) :
    Action.evtloopRun c ∉ (errout pidfd cfgo rv).1 := by
  unfold errout
  rcases cfgo with _ | c' <;> by_cases hp : pidfd = -1 <;> simp [hp]

theorem errout_configFree_mem (pidfd : Int) (cfg : Config) (rv : Int) :
    Action.configFree cfg ∈ (errout pidfd (some cfg) rv).1 := by
  unfold errout
  by_cases hp : pidfd = -1 <;> simp [hp]

theorem configMod_countP_zero (tr : List Action) (p : Action → Bool)
    (htr : ∀ a ∈ tr, isConfigMod a = true)
    (h1 : ∀ k v, p (Action.configStr k v) = false) (h2 : p Action.setLaunchd = false) :
    tr.countP p = 0 := by
  rw [List.countP_eq_zero]
  intro a ha
  have hc := htr a ha
  cases a <;> simp_all [isConfigMod]

/-- C7 witness: a policy that suppresses file events, applied to a fork
record whose fork event passes. -/
theorem suppress_never_reaches_sink_witness :
    (pipelineStep samplePolicy emptyState (ARecord.forkR 5)).1 =
      (correlate emptyState (ARecord.forkR 5)).1 ∧
    samplePolicy (SEvent.forkEv 5 1) ≠ Verdict.suppress :=
  ⟨(suppress_never_reaches_sink samplePolicy emptyState (ARecord.forkR 5)).1,
   (suppress_never_reaches_sink samplePolicy emptyState (ARecord.forkR 5)).2
     (SEvent.forkEv 5 1) (by decide)⟩

/-- C4: the configuration is immutable once the event loop is entered:
in every run, no configuration-mutating action (a `config_str` override
or the `-d` launchd-mode write) occurs after the `evtloop_run` action —
every command-line override is applied before `evtloop_run` is called —
and the configuration passed to `evtloop_run` is exactly the object
later released by `config_free`. -/
theorem config_immutable_after_evtloop (env : Env) (opts : List Opt) (extra : Bool) :
    ((afterFirst isEvtloopRun (main env opts extra).1).countP isConfigMod = 0) ∧
    (∀ c, Action.evtloopRun c ∈ (main env opts extra).1 →
      Action.configFree c ∈ (main env opts extra).1) := by
  rcases main_shape env opts extra with ⟨code, hm⟩ |
    ⟨cp, tr, mid, cfgo, pidfd, rv, htr, hcase, hm⟩
  · rw [hm]
    exact ⟨rfl, by intro c hc; simp at hc⟩
  · rw [hm]
    have hpre0 : (([Action.debugInit, Action.umaskSet, Action.configNew cp] :
        List Action).countP isEvtloopRun) = 0 := rfl
    have htr0 : tr.countP isEvtloopRun = 0 :=
      configMod_countP_zero tr isEvtloopRun htr (fun k v => rfl) rfl
    have herr0 : ((errout pidfd cfgo rv).1.countP isEvtloopRun) = 0 :=
      errout_countP_zero isEvtloopRun pidfd cfgo rv (fun fd s => rfl) (fun c => rfl) rfl
    have herrc : ((errout pidfd cfgo rv).1.countP isConfigMod) = 0 :=
      errout_countP_zero isConfigMod pidfd cfgo rv (fun fd s => rfl) (fun c => rfl) rfl
    have hmain : mid.countP isEvtloopRun = 0 →
        ((afterFirst isEvtloopRun
          ([Action.debugInit, Action.umaskSet, Action.configNew cp] ++ tr ++ mid ++
            (errout pidfd cfgo rv).1)).countP isConfigMod = 0) ∧
        ∀ c, Action.evtloopRun c ∈
            ([Action.debugInit, Action.umaskSet, Action.configNew cp] ++ tr ++ mid ++
              (errout pidfd cfgo rv).1) → False := by
      intro hmid0
      have hall : (([Action.debugInit, Action.umaskSet, Action.configNew cp] ++ tr ++ mid ++
          (errout pidfd cfgo rv).1).countP isEvtloopRun) = 0 := by
        simp only [List.countP_append, hpre0, htr0, hmid0, herr0]
      constructor
      · rw [afterFirst_of_countP_zero _ _ hall]
        rfl
      · intro c hc
        have h0 : 0 < (([Action.debugInit, Action.umaskSet, Action.configNew cp] ++ tr ++
            mid ++ (errout pidfd cfgo rv).1).countP isEvtloopRun) :=
          List.countP_pos_iff.mpr ⟨Action.evtloopRun c, hc, rfl⟩
        omega
    rcases hcase with ⟨hmid, hfd, hrv⟩ | ⟨cfg, hcfgo, hmt⟩
    · subst hmid
      exact ⟨(hmain rfl).1, fun c hc => ((hmain rfl).2 c hc).elim⟩
    · subst hcfgo
      cases hmt with
      | uidFail => exact ⟨(hmain rfl).1, fun c hc => ((hmain rfl).2 c hc).elim⟩
      | taskFail => exact ⟨(hmain rfl).1, fun c hc => ((hmain rfl).2 c hc).elim⟩
      | diskioFail => exact ⟨(hmain rfl).1, fun c hc => ((hmain rfl).2 c hc).elim⟩
      | limitFail => exact ⟨(hmain rfl).1, fun c hc => ((hmain rfl).2 c hc).elim⟩
      | openFail => exact ⟨(hmain rfl).1, fun c hc => ((hmain rfl).2 c hc).elim⟩
      | writeFail h => exact ⟨(hmain rfl).1, fun c hc => ((hmain rfl).2 c hc).elim⟩
      | loop h =>
        constructor
        · rw [List.append_assoc, List.append_assoc,
            afterFirst_append_left_zero _ _ _ hpre0,
            afterFirst_append_left_zero _ _ _ htr0]
          exact herrc
        · intro c hc
          simp only [List.append_assoc, List.mem_append, List.mem_cons,
            List.mem_singleton] at hc
          rcases hc with hc | hc | hc
          · simp at hc
          · have h0 : 0 < tr.countP isEvtloopRun :=
              List.countP_pos_iff.mpr ⟨_, hc, rfl⟩
            omega
          · rcases hc with hc | hc
            · rcases hc with hc | hc | hc | hc | hc | hc <;> try simp at hc
              · have hcc : c = cfg := hc
                subst hcc
                exact List.mem_append.mpr (Or.inr
                  (errout_configFree_mem env.sys_pidf_open c (env.evtloop_run c)))
            · exact absurd hc
                (errout_no_evtloop env.sys_pidf_open (some cfg) (env.evtloop_run cfg) c)

/-- C4 witness: the sample run with the `-m` override applied. -/
theorem config_immutable_after_evtloop_witness :
    ((afterFirst isEvtloopRun
        (main sampleEnv [Opt.m] false).1).countP isConfigMod = 0) ∧
    Action.configFree
        { path := "/cfg", launchd_mode := false, limit_nofile := 256,
          settings := [("log_mode", "multiline")] } ∈
      (main sampleEnv [Opt.m] false).1 :=
  ⟨(config_immutable_after_evtloop sampleEnv [Opt.m] false).1,
   (config_immutable_after_evtloop sampleEnv [Opt.m] false).2
     { path := "/cfg", launchd_mode := false, limit_nofile := 256,
       settings := [("log_mode", "multiline")] } (by decide)⟩

/-- C5: each global bootstrap side effect — scheduler priority, disk-IO
policy, descriptor limit, pidfile lock — occurs at most once in every
run; none of them occurs after the `evtloop_run` action; and in a run
that enters the event loop each occurs exactly once, hence strictly
before `evtloop_run`. -/
theorem bootstrap_once_before_evtloop (env : Env) (opts : List Opt) (extra : Bool) :
    ((main env opts extra).1.countP isTaskSched ≤ 1 ∧
     (main env opts extra).1.countP isDiskio ≤ 1 ∧
     (main env opts extra).1.countP isLimitNoFile ≤ 1 ∧
     (main env opts extra).1.countP isPidfOpen ≤ 1) ∧
    ((afterFirst isEvtloopRun (main env opts extra).1).countP isBootstrap = 0) ∧
    (∀ c, Action.evtloopRun c ∈ (main env opts extra).1 →
      ((main env opts extra).1.countP isTaskSched = 1 ∧
       (main env opts extra).1.countP isDiskio = 1 ∧
       (main env opts extra).1.countP isLimitNoFile = 1 ∧
       (main env opts extra).1.countP isPidfOpen = 1)) := by
  rcases main_shape env opts extra with ⟨code, hm⟩ |
    ⟨cp, tr, mid, cfgo, pidfd, rv, htr, hcase, hm⟩
  · rw [hm]
    exact ⟨⟨Nat.zero_le 1, Nat.zero_le 1, Nat.zero_le 1, Nat.zero_le 1⟩, rfl,
      by intro c hc; simp at hc⟩
  · rw [hm]
    have hpre0 : (([Action.debugInit, Action.umaskSet, Action.configNew cp] :
        List Action).countP isEvtloopRun) = 0 := rfl
    have htr0 : tr.countP isEvtloopRun = 0 :=
      configMod_countP_zero tr isEvtloopRun htr (fun k v => rfl) rfl
    have herr0 : ((errout pidfd cfgo rv).1.countP isEvtloopRun) = 0 :=
      errout_countP_zero isEvtloopRun pidfd cfgo rv (fun fd s => rfl) (fun c => rfl) rfl
    have hcnt : ∀ (p : Action → Bool),
        (∀ k v, p (Action.configStr k v) = false) → p Action.setLaunchd = false →
        (∀ fd s, p (Action.pidfClose fd s) = false) →
        (∀ c, p (Action.configFree c) = false) →
        p Action.debugFini = false → p Action.debugInit = false →
        p Action.umaskSet = false → (∀ x, p (Action.configNew x) = false) →
        (([Action.debugInit, Action.umaskSet, Action.configNew cp] ++ tr ++ mid ++
          (errout pidfd cfgo rv).1).countP p) = mid.countP p := by
      intro p h1 h2 h3 h4 h5 h6 h7 h8
      simp only [List.countP_append]
      rw [configMod_countP_zero tr p htr h1 h2,
        errout_countP_zero p pidfd cfgo rv h3 h4 h5]
      have hprep : (([Action.debugInit, Action.umaskSet, Action.configNew cp] :
          List Action).countP p) = 0 := by
        simp [List.countP_cons, h6, h7, h8]
      omega
    have hT := hcnt isTaskSched (fun k v => rfl) rfl (fun fd s => rfl) (fun c => rfl)
      rfl rfl rfl (fun x => rfl)
    have hD := hcnt isDiskio (fun k v => rfl) rfl (fun fd s => rfl) (fun c => rfl)
      rfl rfl rfl (fun x => rfl)
    have hL := hcnt isLimitNoFile (fun k v => rfl) rfl (fun fd s => rfl) (fun c => rfl)
      rfl rfl rfl (fun x => rfl)
    have hP := hcnt isPidfOpen (fun k v => rfl) rfl (fun fd s => rfl) (fun c => rfl)
      rfl rfl rfl (fun x => rfl)
    have hmain : mid.countP isEvtloopRun = 0 →
        mid.countP isTaskSched ≤ 1 → mid.countP isDiskio ≤ 1 →
        mid.countP isLimitNoFile ≤ 1 → mid.countP isPidfOpen ≤ 1 →
        ((([Action.debugInit, Action.umaskSet, Action.configNew cp] ++ tr ++ mid ++
            (errout pidfd cfgo rv).1).countP isTaskSched ≤ 1 ∧
          ([Action.debugInit, Action.umaskSet, Action.configNew cp] ++ tr ++ mid ++
            (errout pidfd cfgo rv).1).countP isDiskio ≤ 1 ∧
          ([Action.debugInit, Action.umaskSet, Action.configNew cp] ++ tr ++ mid ++
            (errout pidfd cfgo rv).1).countP isLimitNoFile ≤ 1 ∧
          ([Action.debugInit, Action.umaskSet, Action.configNew cp] ++ tr ++ mid ++
            (errout pidfd cfgo rv).1).countP isPidfOpen ≤ 1) ∧
        ((afterFirst isEvtloopRun
          ([Action.debugInit, Action.umaskSet, Action.configNew cp] ++ tr ++ mid ++
            (errout pidfd cfgo rv).1)).countP isBootstrap = 0) ∧
        (∀ c, Action.evtloopRun c ∈
            ([Action.debugInit, Action.umaskSet, Action.configNew cp] ++ tr ++ mid ++
              (errout pidfd cfgo rv).1) →
          (([Action.debugInit, Action.umaskSet, Action.configNew cp] ++ tr ++ mid ++
              (errout pidfd cfgo rv).1).countP isTaskSched = 1 ∧
           ([Action.debugInit, Action.umaskSet, Action.configNew cp] ++ tr ++ mid ++
              (errout pidfd cfgo rv).1).countP isDiskio = 1 ∧
           ([Action.debugInit, Action.umaskSet, Action.configNew cp] ++ tr ++ mid ++
              (errout pidfd cfgo rv).1).countP isLimitNoFile = 1 ∧
           ([Action.debugInit, Action.umaskSet, Action.configNew cp] ++ tr ++ mid ++
              (errout pidfd cfgo rv).1).countP isPidfOpen = 1))) := by
      intro h0 h1 h2 h3 h4
      have hall : (([Action.debugInit, Action.umaskSet, Action.configNew cp] ++ tr ++
          mid ++ (errout pidfd cfgo rv).1).countP isEvtloopRun) = 0 := by
        simp only [List.countP_append, hpre0, htr0, h0, herr0]
      refine ⟨⟨?_, ?_, ?_, ?_⟩, ?_, ?_⟩
      · rw [hT]; exact h1
      · rw [hD]; exact h2
      · rw [hL]; exact h3
      · rw [hP]; exact h4
      · rw [afterFirst_of_countP_zero _ _ hall]
        rfl
      · intro c hc
        have hpos : 0 < (([Action.debugInit, Action.umaskSet, Action.configNew cp] ++
            tr ++ mid ++ (errout pidfd cfgo rv).1).countP isEvtloopRun) :=
          List.countP_pos_iff.mpr ⟨Action.evtloopRun c, hc, rfl⟩
        omega
    rcases hcase with ⟨hmid, hfd, hrv⟩ | ⟨cfg, hcfgo, hmt⟩
    · subst hmid
      exact hmain rfl (Nat.zero_le 1) (Nat.zero_le 1) (Nat.zero_le 1) (Nat.zero_le 1)
    · subst hcfgo
      cases hmt with
      | uidFail =>
        exact hmain rfl (Nat.zero_le 1) (Nat.zero_le 1) (Nat.zero_le 1) (Nat.zero_le 1)
      | taskFail =>
        exact hmain rfl (Nat.le_refl 1) (Nat.zero_le 1) (Nat.zero_le 1) (Nat.zero_le 1)
      | diskioFail =>
        exact hmain rfl (Nat.le_refl 1) (Nat.le_refl 1) (Nat.zero_le 1) (Nat.zero_le 1)
      | limitFail =>
        exact hmain rfl (Nat.le_refl 1) (Nat.le_refl 1) (Nat.le_refl 1) (Nat.zero_le 1)
      | openFail =>
        exact hmain rfl (Nat.le_refl 1) (Nat.le_refl 1) (Nat.le_refl 1) (Nat.le_refl 1)
      | writeFail h =>
        exact hmain rfl (Nat.le_refl 1) (Nat.le_refl 1) (Nat.le_refl 1) (Nat.le_refl 1)
      | loop h =>
        refine ⟨⟨?_, ?_, ?_, ?_⟩, ?_, ?_⟩
        · rw [hT]; exact Nat.le_refl 1
        · rw [hD]; exact Nat.le_refl 1
        · rw [hL]; exact Nat.le_refl 1
        · rw [hP]; exact Nat.le_refl 1
        · rw [List.append_assoc, List.append_assoc,
            afterFirst_append_left_zero _ _ _ hpre0,
            afterFirst_append_left_zero _ _ _ htr0]
          exact errout_countP_zero isBootstrap env.sys_pidf_open (some cfg)
            (env.evtloop_run cfg) (fun fd s => rfl) (fun c => rfl) rfl
        · intro c hc
          exact ⟨by rw [hT]; rfl, by rw [hD]; rfl, by rw [hL]; rfl, by rw [hP]; rfl⟩

/-- C5 witness: a failing disk-IO policy call in the sample environment
leaves each bootstrap side effect at most once and never after the
event loop; a successful sample run has each exactly once. -/
theorem bootstrap_once_before_evtloop_witness :
    ((main sampleEnv [] false).1.countP isTaskSched ≤ 1 ∧
     (main sampleEnv [] false).1.countP isDiskio ≤ 1 ∧
     (main sampleEnv [] false).1.countP isLimitNoFile ≤ 1 ∧
     (main sampleEnv [] false).1.countP isPidfOpen ≤ 1) ∧
    ((afterFirst isEvtloopRun (main sampleEnv [] false).1).countP isBootstrap = 0) ∧
    ((main sampleEnv [] false).1.countP isTaskSched = 1 ∧
     (main sampleEnv [] false).1.countP isDiskio = 1 ∧
     (main sampleEnv [] false).1.countP isLimitNoFile = 1 ∧
     (main sampleEnv [] false).1.countP isPidfOpen = 1) :=
  ⟨(bootstrap_once_before_evtloop sampleEnv [] false).1,
   (bootstrap_once_before_evtloop sampleEnv [] false).2.1,
   (bootstrap_once_before_evtloop sampleEnv [] false).2.2 sampleCfg (by decide)⟩

/-- C1: when every startup step has succeeded — configuration load,
command-line overrides, privilege check, scheduler priority, disk-IO
policy, descriptor limit, pidfile open and write — main calls
evtloop_run exactly once and then exits, with EXIT_FAILURE exactly when
evtloop_run returned -1 and EXIT_SUCCESS otherwise: no other
post-startup condition decides the exit code. -/
theorem evtloop_once_and_exit_code (env : Env) (opts : List Opt) (extra : Bool)
    (cp : Option String) (cfg0 : Config)
    (h1 : firstPass opts none = Sum.inr cp)
    (h2 : env.config_new cp = some cfg0)
    (h3 : (secondPass env opts cfg0).2.2 = true)
    (h4 : extra = false)
    (h5 : ((env.getuid != 0) && !env.setuid0) = false)
    (h6 : env.policy_task_sched_priority = true)
    (h7 : env.policy_thread_diskio_important = true)
    (h8 : env.sys_limit_nofile (secondPass env opts cfg0).2.1.limit_nofile = true)
    (h9 : env.sys_pidf_open ≠ -1)
    (h10 : env.sys_pidf_write = true) :
    ((main env opts extra).1.countP isEvtloopRun = 1) ∧
    ((main env opts extra).2 =
      if env.evtloop_run (secondPass env opts cfg0).2.1 = -1 then ExitCode.failure
      else ExitCode.success) := by
  have hsp0 := secondPass_countP_zero env opts cfg0 isEvtloopRun (fun k v => rfl) rfl
  have herr0 := errout_countP_zero isEvtloopRun env.sys_pidf_open
    (some (secondPass env opts cfg0).2.1)
    (env.evtloop_run (secondPass env opts cfg0).2.1)
    (fun fd s => rfl) (fun c => rfl) rfl
  unfold main runStartup withAct
  rw [h1]
  simp only [h2, h3, h4, h5, h6, h7, h8, h10, Bool.not_true, if_neg h9,
    Bool.false_eq_true, if_false, ite_false, ite_true]
  constructor
  · simp [List.countP_append, List.countP_cons, hsp0, herr0, isEvtloopRun]
  · exact errout_exit env.sys_pidf_open (some (secondPass env opts cfg0).2.1)
      (env.evtloop_run (secondPass env opts cfg0).2.1)

/-- C1 witness: the sample environment with no options. -/
theorem evtloop_once_and_exit_code_witness :
    ((main sampleEnv [] false).1.countP isEvtloopRun = 1) ∧
    ((main sampleEnv [] false).2 =
      if sampleEnv.evtloop_run (secondPass sampleEnv [] sampleCfg).2.1 = -1 then
        ExitCode.failure
      else ExitCode.success) :=
  evtloop_once_and_exit_code sampleEnv [] false none sampleCfg
    rfl rfl rfl rfl rfl rfl rfl rfl (by decide) rfl

/-- C6: in a run that reaches the pidfile step, if sys_pidf_open fails
(returns -1, e.g. because another instance holds the lock), main exits
with EXIT_FAILURE and never calls evtloop_run. -/
theorem pidfile_open_fail_no_evtloop (env : Env) (opts : List Opt) (extra : Bool)
    (cp : Option String) (cfg0 : Config)
    (h1 : firstPass opts none = Sum.inr cp)
    (h2 : env.config_new cp = some cfg0)
    (h3 : (secondPass env opts cfg0).2.2 = true)
    (h4 : extra = false)
    (h5 : ((env.getuid != 0) && !env.setuid0) = false)
    (h6 : env.policy_task_sched_priority = true)
    (h7 : env.policy_thread_diskio_important = true)
    (h8 : env.sys_limit_nofile (secondPass env opts cfg0).2.1.limit_nofile = true)
    (h9 : env.sys_pidf_open = -1) :
    ((main env opts extra).2 = ExitCode.failure) ∧
    ((main env opts extra).1.countP isEvtloopRun = 0) := by
  have hsp0 := secondPass_countP_zero env opts cfg0 isEvtloopRun (fun k v => rfl) rfl
  unfold main runStartup withAct
  rw [h1]
  simp only [h2, h3, h4, h5, h6, h7, h8, if_pos h9, Bool.not_true,
    Bool.false_eq_true, if_false, ite_false, ite_true]
  constructor
  · rfl
  · simp [List.countP_append, List.countP_cons, hsp0, errout, isEvtloopRun]

/-- C6 witness: the sample environment with a locked pidfile. -/
theorem pidfile_open_fail_no_evtloop_witness :
    ((main { sampleEnv with sys_pidf_open := -1 } [] false).2 = ExitCode.failure) ∧
    ((main { sampleEnv with sys_pidf_open := -1 } [] false).1.countP
      isEvtloopRun = 0) :=
  pidfile_open_fail_no_evtloop { sampleEnv with sys_pidf_open := -1 } [] false
    none sampleCfg rfl rfl rfl rfl rfl rfl rfl rfl rfl

/-- C8: in any invocation that gets past the first option pass, if
getuid() is non-zero and setuid(0) fails, main exits with EXIT_FAILURE
without ever setting the scheduler or disk-IO policy, touching the
pidfile, or calling evtloop_run. -/
theorem root_privileges_required (env : Env) (opts : List Opt) (extra : Bool)
    (cp : Option String)
    (h1 : firstPass opts none = Sum.inr cp)
    (hu : env.getuid ≠ 0)
    (hs : env.setuid0 = false) :
    ((main env opts extra).2 = ExitCode.failure) ∧
    (main env opts extra).1.countP isTaskSched = 0 ∧
    (main env opts extra).1.countP isDiskio = 0 ∧
    (main env opts extra).1.countP isPidfOpen = 0 ∧
    (main env opts extra).1.countP isEvtloopRun = 0 := by
  have h5 : ((env.getuid != 0) && !env.setuid0) = true := by
    rw [hs]
    simp [bne_iff_ne, hu]
  unfold main runStartup
  rw [h1]
  cases hcn : env.config_new cp with
  | none =>
    simp [hcn, errout, List.countP_append, List.countP_cons,
      isTaskSched, isDiskio, isPidfOpen, isEvtloopRun]
  | some cfg0 =>
    have hspT := secondPass_countP_zero env opts cfg0 isTaskSched (fun k v => rfl) rfl
    have hspD := secondPass_countP_zero env opts cfg0 isDiskio (fun k v => rfl) rfl
    have hspP := secondPass_countP_zero env opts cfg0 isPidfOpen (fun k v => rfl) rfl
    have hspE := secondPass_countP_zero env opts cfg0 isEvtloopRun (fun k v => rfl) rfl
    by_cases hsp : (secondPass env opts cfg0).2.2 = true
    · cases extra
      · simp [hcn, hsp, h5, errout, List.countP_append, List.countP_cons,
          hspT, hspD, hspP, hspE, isTaskSched, isDiskio, isPidfOpen, isEvtloopRun]
      · simp [hcn, hsp, errout, List.countP_append, List.countP_cons,
          hspT, hspD, hspP, hspE, isTaskSched, isDiskio, isPidfOpen, isEvtloopRun]
    · have hsp' : (secondPass env opts cfg0).2.2 = false := Bool.eq_false_iff.mpr hsp
      simp [hcn, hsp', errout, List.countP_append, List.countP_cons,
        hspT, hspD, hspP, hspE, isTaskSched, isDiskio, isPidfOpen, isEvtloopRun]

/-- C8 witness: the sample environment running unprivileged with a
failing setuid. -/
theorem root_privileges_required_witness :
    ((main { sampleEnv with getuid := 501, setuid0 := false } [] false).2 =
      ExitCode.failure) ∧
    (main { sampleEnv with getuid := 501, setuid0 := false } [] false).1.countP
      isTaskSched = 0 ∧
    (main { sampleEnv with getuid := 501, setuid0 := false } [] false).1.countP
      isDiskio = 0 ∧
    (main { sampleEnv with getuid := 501, setuid0 := false } [] false).1.countP
      isPidfOpen = 0 ∧
    (main { sampleEnv with getuid := 501, setuid0 := false } [] false).1.countP
      isEvtloopRun = 0 :=
  root_privileges_required { sampleEnv with getuid := 501, setuid0 := false }
    [] false none rfl (by decide) rfl

/-- C9: once sys_pidf_open has succeeded, every exit path of main —
pidfile-write failure, event-loop error, or clean shutdown — closes the
pidfile exactly once, with that descriptor and XNUMON_PIDFILE. -/
theorem pidfile_closed_on_every_exit (env : Env) (opts : List Opt) (extra : Bool)
    (cp : Option String) (cfg0 : Config)
    (h1 : firstPass opts none = Sum.inr cp)
    (h2 : env.config_new cp = some cfg0)
    (h3 : (secondPass env opts cfg0).2.2 = true)
    (h4 : extra = false)
    (h5 : ((env.getuid != 0) && !env.setuid0) = false)
    (h6 : env.policy_task_sched_priority = true)
    (h7 : env.policy_thread_diskio_important = true)
    (h8 : env.sys_limit_nofile (secondPass env opts cfg0).2.1.limit_nofile = true)
    (h9 : env.sys_pidf_open ≠ -1) :
    (main env opts extra).1.filter isPidfClose =
      [Action.pidfClose env.sys_pidf_open xnumonPidfile] := by
  have hsp : (secondPass env opts cfg0).1.filter isPidfClose = [] := by
    rw [List.filter_eq_nil_iff]
    intro a ha
    have hc := secondPass_trace_configMod env opts cfg0 a ha
    cases a <;> simp_all [isConfigMod, isPidfClose]
  unfold main runStartup withAct
  rw [h1]
  simp only [h2, h3, h4, h5, h6, h7, h8, Bool.not_true, if_neg h9,
    Bool.false_eq_true, if_false, ite_false, ite_true]
  by_cases h10 : env.sys_pidf_write = true
  · simp [h10, errout, if_neg h9, List.filter_append, hsp, isPidfClose]
  · have h10' : env.sys_pidf_write = false := Bool.eq_false_iff.mpr h10
    simp [h10', errout, if_neg h9, List.filter_append, hsp, isPidfClose]

/-- C9 witness: the sample run closes pidfile descriptor 5. -/
theorem pidfile_closed_on_every_exit_witness :
    (main sampleEnv [] false).1.filter isPidfClose =
      [Action.pidfClose sampleEnv.sys_pidf_open xnumonPidfile] :=
  pidfile_closed_on_every_exit sampleEnv [] false none sampleCfg
    rfl rfl rfl rfl rfl rfl rfl rfl (by decide)

theorem secondPass_filter_overrides (env : Env) (l : List Opt) (cfg : Config) :
    secondPass env l cfg = secondPass env (l.filter isOverrideOpt) cfg := by
  induction l generalizing cfg with
  | nil => rfl
  | cons o rest ih =>
    cases o with
    | o s =>
      rw [List.filter_cons_of_pos rfl]
      simp only [secondPass]
      cases hsq : splitEq s with
      | none => simp [hsq]
      | some kv =>
        obtain ⟨k, v⟩ := kv
        simp only [hsq]
        cases hcs : env.config_str cfg k v with
        | none => simp [hcs]
        | some cfg' => simp [hcs, ih]
    | l s =>
      rw [List.filter_cons_of_pos rfl]
      simp only [secondPass]
      cases hcs : env.config_str cfg "log_format" s with
      | none => simp [hcs]
      | some cfg' => simp [hcs, ih]
    | f s =>
      rw [List.filter_cons_of_pos rfl]
      simp only [secondPass]
      cases hcs : env.config_str cfg "log_destination" s with
      | none => simp [hcs]
      | some cfg' => simp [hcs, ih]
    | one =>
      rw [List.filter_cons_of_pos rfl]
      simp only [secondPass]
      cases hcs : env.config_str cfg "log_mode" "oneline" with
      | none => simp [hcs]
      | some cfg' => simp [hcs, ih]
    | m =>
      rw [List.filter_cons_of_pos rfl]
      simp only [secondPass]
      cases hcs : env.config_str cfg "log_mode" "multiline" with
      | none => simp [hcs]
      | some cfg' => simp [hcs, ih]
    | d =>
      rw [List.filter_cons_of_pos rfl]
      simp only [secondPass]
      rw [ih]
    | c s =>
      rw [List.filter_cons_of_neg (by simp [isOverrideOpt])]
      exact ih cfg
    | V =>
      rw [List.filter_cons_of_neg (by simp [isOverrideOpt])]
      exact ih cfg
    | h =>
      rw [List.filter_cons_of_neg (by simp [isOverrideOpt])]
      exact ih cfg
    | unknown =>
      rw [List.filter_cons_of_neg (by simp [isOverrideOpt])]
      exact ih cfg

/-- C10: command-line options are handled in two passes — `-c`, `-V`,
`-h` before the configuration is loaded, the overrides after — so the
`-c` config path takes effect (the `config_new` action) before any
override action, and two argument vectors with the same first-pass
outcome and the same override subsequence produce identical runs,
regardless of the relative order of `-c` and the override options. -/
theorem two_pass_order_independent (env : Env) (extra : Bool) (l1 l2 : List Opt)
    (hfp : firstPass l1 none = firstPass l2 none)
    (hov : l1.filter isOverrideOpt = l2.filter isOverrideOpt) :
    main env l1 extra = main env l2 extra ∧
    (((main env l1 extra).1.takeWhile
        (fun a => !(isConfigNew a))).countP isConfigMod = 0) := by
  constructor
  · have hsp_eq : secondPass env l1 = secondPass env l2 := by
      funext cfg
      rw [secondPass_filter_overrides env l1 cfg,
        secondPass_filter_overrides env l2 cfg, hov]
    unfold main
    rw [← hfp]
    simp only [hsp_eq]
  · cases hf : firstPass l1 none with
    | inl code =>
      unfold main
      simp [hf]
    | inr cp =>
      unfold main
      rw [hf]
      cases hcn : env.config_new cp with
      | none =>
        simp [hcn, List.takeWhile, isConfigNew, isConfigMod, List.countP_cons]
      | some cfg0 =>
        by_cases hsp : (secondPass env l1 cfg0).2.2 = true <;>
          by_cases hex : extra = true <;>
            simp [hcn, hsp, hex, List.takeWhile, isConfigNew, isConfigMod,
              List.countP_cons]

/-- C10 witness: `-c` before and after the `-m` override. -/
theorem two_pass_order_independent_witness :
    main sampleEnv [Opt.c "x", Opt.m] false = main sampleEnv [Opt.m, Opt.c "x"] false ∧
    (((main sampleEnv [Opt.c "x", Opt.m] false).1.takeWhile
        (fun a => !(isConfigNew a))).countP isConfigMod = 0) :=
  two_pass_order_independent sampleEnv false [Opt.c "x", Opt.m] [Opt.m, Opt.c "x"]
    (by decide) (by decide)


end Xnumon
